import Mathlib

/-!
Verification of the build orchestration core of `node-amxxpack`
(`src/builder/builder.ts`, `src/types/index.ts`).

The embedding models:
* the sequential promise-chain reduction of `AmxxBuilder.buildDir`
  (`matches.reduce((acc, match) => acc.then(() => cb(match)), Promise.resolve())`)
  as a left-to-right chain over the match list that threads a state (the
  globally visible logger output and the mutable `success` flag of
  `buildSrc`) and short-circuits on a thrown error;
* `buildSrc` / `build` with their error-tolerance policy (`ignoreErrors`);
* the diagnostic routing and success check of `compilePlugin`
  (lines 193–213 of `builder.ts`);
* the destination-path computation of `updateScript`, `updateInclude`,
  `updateAsset` and `compilePlugin`, over paths as segment lists.

The compiler wrapper `amxxpc` and the utility `find-relative-path` are not
part of the given sources; the enum of message severities and the relative
path resolver are modelled from the spec where needed (marked below).
-/

/-- Log levels of the external logger collaborator
(`logger.info/success/warn/error/debug` in `builder.ts`). -/
inductive LogLevel where
  | info
  | success
  | warn
  | error
  | debug
deriving DecidableEq, Repr

/-- One leveled log line emitted through the logger collaborator. -/
structure LogEntry where
  level : LogLevel
  text : String
deriving DecidableEq, Repr

/-- Severity tags of compiler diagnostic messages.
Modelled from the spec: the module `amxxpc` that declares
`AMXPCMessageType` is not under `src/`; §3 of the spec fixes the severities
as `{FatalError, Error, Warning, Echo}`. -/
inductive AMXPCMessageType where
  | Error
  | FatalError
  | Warning
  | Echo
deriving DecidableEq, Repr

/-- A structured diagnostic message of a compile result
(destructured as `{ startLine, type, code, text, filename }` in
`compilePlugin`). -/
structure AMXPCMessage where
  startLine : Nat
  type : AMXPCMessageType
  code : String
  text : String
  filename : Option String
deriving DecidableEq, Repr

/-- The structured result returned by the `amxxpc` wrapper, as consumed by
`compilePlugin`: `result.success`, `result.plugin` (artifact name),
`result.error`, `result.output.messages` (flattened here to `messages`). -/
structure AMXXPCResult where
  success : Bool
  plugin : String
  error : Option String
  messages : List AMXPCMessage
deriving DecidableEq, Repr

/-- A filesystem path, as the list of its segments. -/
abbrev FsPath := List String

/-- Renders a segment path the way `normalizePath` renders it (forward
slashes); used only to build log/error message text. -/
def pathToString (p : FsPath) : String :=
  String.intercalate "/" p

/-- `path.parse(p).dir`: all segments but the last. -/
def dirOf (p : FsPath) : FsPath :=
  p.dropLast

/-- `path.parse(p).base`: the last segment (empty for the empty path). -/
def baseOf (p : FsPath) : String :=
  p.getLastD ""

/-- Strips a base directory from the front of a target path, yielding the
target relative to the base when the base is a proper ancestor.  A target
equal to the base yields the empty relative path, which the builder's falsy
check (`if (!relativePath) throw`) treats as not found, hence `none`. -/
def stripBase : FsPath → FsPath → Option FsPath
  | [], rest => if rest.isEmpty then none else some rest
  | _ :: _, [] => none
  | b :: bs, t :: ts => if b = t then stripBase bs ts else none

/-- Modelled from the spec: the utility `find-relative-path` is not under
`src/`.  Per §4.1, candidate base directories are checked in the order
supplied, the first one that is an ancestor of the target wins, and the
result is the target relative to that ancestor; `none` when no base
directory is an ancestor. -/
def findRelativePath (basePaths : List FsPath) (target : FsPath) : Option FsPath :=
  basePaths.findSome? fun b => stripBase b target

/-! ## The sequential batch chain of `buildDir` -/

/-- Embeds the promise-chain reduction of `AmxxBuilder.buildDir`:
`matches.reduce((acc, match) => acc.then(() => cb(match)), Promise.resolve())`.
The callback updates the globally visible state `σ` (logger output, the
mutable `success` flag) and may throw (`some e`), which rejects the chain:
no later callback runs, while state already produced (logs) persists. -/
def buildDirChain (cb : σ → String → σ × Option ε) : σ → List String → σ × Option ε
  | s, [] => (s, none)
  | s, f :: rest =>
    match cb s f with
    | (s1, none) => buildDirChain cb s1 rest
    | (s1, some e) => (s1, some e)

/-- The state threaded through one `buildSrc` batch: which files the
per-file action has been invoked on (in order), the log lines emitted so
far, and the mutable `success` flag (`let success = true` in `buildSrc`). -/
structure SrcSt where
  attempted : List String
  log : List LogEntry
  success : Bool
deriving DecidableEq, Repr

/-- The per-file callback of `buildSrc` (lines 49–59 of `builder.ts`).
`act f` is the outcome of `this.updatePlugin(f)` (`none` = resolved,
`some e` = rejected with error `e`); `diag f` is the log output the
per-file action emits (script-updated line, routed diagnostics, success
lines).  On a rejection, `ignoreErrors` decides between swallowing the
error and recording `success = false`, or rethrowing. -/
def srcCb (ignoreErrors : Bool) (act : String → Option String)
    (diag : String → List LogEntry) (s : SrcSt) (f : String) : SrcSt × Option String :=
  let s1 : SrcSt :=
    { attempted := s.attempted ++ [f], log := s.log ++ diag f, success := s.success }
  match act f with
  | none => (s1, none)
  | some e =>
    if ignoreErrors then ({ s1 with success := false }, none) else (s1, some e)

/-- One run of `AmxxBuilder.buildSrc`: the final batch state plus the
error it rejects with, if any. -/
def buildSrcRun (ignoreErrors : Bool) (act : String → Option String)
    (diag : String → List LogEntry) (ms : List String) : SrcSt × Option String :=
  buildDirChain (srcCb ignoreErrors act diag)
    { attempted := [], log := [], success := true } ms

/-- The value `buildSrc` settles with: `Except.ok` of the aggregate flag
when the chain resolves, `Except.error` of the propagated error when it
rejects. -/
def buildSrcResult (ignoreErrors : Bool) (act : String → Option String)
    (diag : String → List LogEntry) (ms : List String) : Except String Bool :=
  match buildSrcRun ignoreErrors act diag ms with
  | (s, none) => Except.ok s.success
  | (_, some e) => Except.error e

/-- The terminal status line of `AmxxBuilder.build` (lines 30–34):
`logger.success('Build finished!')` on aggregate success,
`logger.error('Build finished with errors!')` otherwise. -/
def terminalLine (success : Bool) : LogEntry :=
  if success then ⟨LogLevel.success, "Build finished!"⟩
  else ⟨LogLevel.error, "Build finished with errors!"⟩

/-- Whether a log entry is one of the two terminal status lines. -/
def isTerminalLine (e : LogEntry) : Bool :=
  e = terminalLine true || e = terminalLine false

/-- Number of terminal status lines in a log. -/
def countTerminal (l : List LogEntry) : Nat :=
  l.countP isTerminalLine

/-- One run of `AmxxBuilder.build` (lines 22–35): logs `Building...`, runs
the assets and include syncs (their log output abstracted as `assetLog`
and `includeLog`), then `buildSrc`, then the terminal status line —
provided `buildSrc` resolved; a rejection of `buildSrc` propagates out of
`build` before any terminal line is logged. -/
def buildRun (ignoreErrors : Bool) (act : String → Option String)
    (diag : String → List LogEntry) (assetLog includeLog : List LogEntry)
    (ms : List String) : List LogEntry × Option String :=
  let head : List LogEntry :=
    ⟨LogLevel.info, "Building..."⟩ :: (assetLog ++ includeLog)
  match buildSrcRun ignoreErrors act diag ms with
  | (s, none) => (head ++ s.log ++ [terminalLine s.success], none)
  | (s, some e) => (head ++ s.log, some e)

/-! ## Instrumentation events for the per-file action of `buildDir` -/

/-- Begin/end events of one per-file action, used to observe that the
promise chain of `buildDir` runs the actions without overlap. -/
inductive ActionEv where
  | start (f : String)
  | finish (f : String)
deriving DecidableEq, Repr

/-! ## Diagnostic routing and the success check of `compilePlugin` -/

/-- The display name of a severity tag (the enum's string value, modelled
from the spec's severity names, used only inside log text). -/
def typeText : AMXPCMessageType → String
  | AMXPCMessageType.Error => "error"
  | AMXPCMessageType.FatalError => "fatal error"
  | AMXPCMessageType.Warning => "warning"
  | AMXPCMessageType.Echo => "echo"

/-- The text of a routed diagnostic line:
`` `${normalizePath(relativeFilePath)}(${startLine})`, type, code, ':', text ``
with the logger joining its arguments by spaces; `srcRel` is the display
path of the file being compiled, substituted when the message carries no
source file (`filename ? path.relative(cwd, filename) : relateiveSrcPath`). -/
def diagText (srcRel : String) (m : AMXPCMessage) : String :=
  (m.filename.getD srcRel) ++ "(" ++ toString m.startLine ++ ") " ++
    typeText m.type ++ " " ++ m.code ++ " : " ++ m.text

/-- Routing of one diagnostic message (lines 193–204 of `builder.ts`):
`Error`/`FatalError` → `logger.error`, `Warning` → `logger.warn`,
`Echo` → `logger.debug` (with the bare text). -/
def routeMessage (srcRel : String) (m : AMXPCMessage) : LogEntry :=
  match m.type with
  | AMXPCMessageType.Error => ⟨LogLevel.error, diagText srcRel m⟩
  | AMXPCMessageType.FatalError => ⟨LogLevel.error, diagText srcRel m⟩
  | AMXPCMessageType.Warning => ⟨LogLevel.warn, diagText srcRel m⟩
  | AMXPCMessageType.Echo => ⟨LogLevel.debug, m.text⟩

/-- The tail of `compilePlugin` (lines 193–213 of `builder.ts`): every
message of the compile result is routed to the logger at its classified
severity; then, if `result.success`, the success lines are logged and the
operation resolves with the artifact path `destDir/result.plugin`,
otherwise the operation rejects with the `Failed to compile` error. -/
def classifyAndFinish (srcRel : String) (destDir : FsPath) (r : AMXXPCResult) :
    List LogEntry × Except String FsPath :=
  let logs := r.messages.map (routeMessage srcRel)
  if r.success then
    (logs ++
      [⟨LogLevel.success, "Compilation success: " ++ srcRel⟩,
       ⟨LogLevel.info, "Plugin updated: " ++ pathToString (destDir ++ [r.plugin])⟩],
     Except.ok (destDir ++ [r.plugin]))
  else
    (logs,
     Except.error ("Failed to compile " ++ srcRel ++ " : \"" ++
       r.error.getD "undefined" ++ "\""))

/-- The destination-directory computation of `compilePlugin` (lines
162–175 of `builder.ts`): the resolved plugins output root when
`rules.flatCompilation` holds; otherwise the root joined with the source
directory's path relative to the configured scripts input directories,
rejecting when none of them contains it. -/
def compilePluginDestDir (inputScripts : List FsPath) (outputPlugins : FsPath)
    (flatCompilation : Bool) (filePath : FsPath) : Except String FsPath :=
  if flatCompilation then Except.ok outputPlugins
  else
    match findRelativePath inputScripts (dirOf filePath) with
    | none =>
      Except.error ("Cannot find relative path for plugin \"" ++ pathToString filePath ++ "\"")
    | some rel => Except.ok (outputPlugins ++ rel)

/-! ## File-sync operations (`updateScript`, `updateInclude`, `updateAsset`) -/

/-- A filesystem side effect performed by the sync actions. -/
inductive FsOp where
  | mkdirp (d : FsPath)
  | copyFile (src dest : FsPath)
deriving DecidableEq, Repr

/-- A snapshot of the filesystem: the set of existing directories and the
contents of existing files. -/
structure FsState where
  dirs : List FsPath
  files : FsPath → Option String

/-- Effect of one operation: `mkdirp` creates the directory idempotently
(an existing directory is left alone, nothing else changes); `copyFile`
replaces the destination's content with the source's content
(`fs.promises.copyFile` overwrite semantics). -/
def applyOp (fs : FsState) : FsOp → FsState
  | FsOp.mkdirp d =>
    { fs with dirs := if d ∈ fs.dirs then fs.dirs else d :: fs.dirs }
  | FsOp.copyFile src dest =>
    { fs with files := fun p => if p = dest then fs.files src else fs.files p }

/-- Runs a sequence of filesystem operations in order. -/
def runOps (fs : FsState) (ops : List FsOp) : FsState :=
  ops.foldl applyOp fs

/-- `AmxxBuilder.updateScript` (lines 118–129 of `builder.ts`): a no-op
when no scripts output directory is configured (`if (!output.scripts)
return`); otherwise creates the output root, then copies the file to the
root joined with the file's base name, and logs the update. -/
def updateScriptRun (outputScripts : Option FsPath) (filePath : FsPath) :
    List FsOp × List LogEntry :=
  match outputScripts with
  | none => ([], [])
  | some root =>
    let destPath := root ++ [baseOf filePath]
    ([FsOp.mkdirp root, FsOp.copyFile filePath destPath],
     [⟨LogLevel.info, "Script updated: " ++ pathToString destPath⟩])

/-- `AmxxBuilder.updateInclude` (lines 146–153 of `builder.ts`): creates
the include output root, then copies the file to the root joined with the
file's base name, and logs the update. -/
def updateIncludeRun (outputInclude : FsPath) (filePath : FsPath) :
    List FsOp × List LogEntry :=
  let destPath := outputInclude ++ [baseOf filePath]
  ([FsOp.mkdirp outputInclude, FsOp.copyFile filePath destPath],
   [⟨LogLevel.info, "Include updated: " ++ pathToString destPath⟩])

/-- `AmxxBuilder.updateAsset` (lines 131–144 of `builder.ts`): rejects
when no configured assets input directory contains the file; otherwise
creates the destination's parent directory, copies the file to the assets
output root joined with the file's path relative to its input root, and
logs the update. -/
def updateAssetRun (inputAssets : List FsPath) (outputAssets : FsPath)
    (filePath : FsPath) : Except String (List FsOp × List LogEntry) :=
  match findRelativePath inputAssets filePath with
  | none =>
    Except.error ("Cannot find relative path for asset \"" ++ pathToString filePath ++ "\"")
  | some rel =>
    let destPath := outputAssets ++ rel
    Except.ok ([FsOp.mkdirp (dirOf destPath), FsOp.copyFile filePath destPath],
      [⟨LogLevel.info, "Asset updated " ++ pathToString destPath⟩])

/-! ### Shape lemmas for the batch chain -/

/-- With `ignoreErrors = true` the chain never rejects: every match is
attempted, logs accumulate in scan order, and the flag is the conjunction
of the per-file outcomes. -/
lemma buildDirChain_srcCb_ignore (act : String → Option String)
    (diag : String → List LogEntry) :
    ∀ (ms : List String) (s : SrcSt),
      buildDirChain (srcCb true act diag) s ms =
        ({ attempted := s.attempted ++ ms,
           log := s.log ++ ms.flatMap diag,
           success := s.success && ms.all fun f => (act f).isNone }, none) := by
  intro ms
  induction ms with
  | nil => intro s; simp [buildDirChain]
  | cons f rest ih =>
    intro s
    cases hf : act f with
    | none =>
      simp [buildDirChain, srcCb, hf, ih, Bool.and_assoc]
    | some e =>
      simp [buildDirChain, srcCb, hf, ih]

/-- With `ignoreErrors = false`, if the chain resolves then every match's
action resolved and the flag is unchanged. -/
lemma buildDirChain_srcCb_noignore_ok (act : String → Option String)
    (diag : String → List LogEntry) :
    ∀ (ms : List String) (s s1 : SrcSt),
      buildDirChain (srcCb false act diag) s ms = (s1, none) →
        (∀ f ∈ ms, act f = none) ∧ s1.success = s.success := by
  intro ms
  induction ms with
  | nil =>
    intro s s1 h
    simp [buildDirChain] at h
    simp [← h]
  | cons f rest ih =>
    intro s s1 h
    cases hf : act f with
    | none =>
      simp [buildDirChain, srcCb, hf] at h
      rcases ih _ _ h with ⟨hall, hsucc⟩
      refine ⟨?_, by simpa using hsucc⟩
      intro g hg
      rcases List.mem_cons.mp hg with hg | hg
      · simpa [hg] using hf
      · exact hall g hg
    | some e =>
      simp [buildDirChain, srcCb, hf] at h

/-- With `ignoreErrors = false`, when every match before `f` resolves and
`f`'s action rejects with `e`, the chain attempts exactly the matches up
to and including `f` (in scan order) and rejects with `e`. -/
lemma buildDirChain_srcCb_noignore_fail (act : String → Option String)
    (diag : String → List LogEntry) :
    ∀ (pre : List String) (f : String) (e : String) (post : List String) (s : SrcSt),
      (∀ g ∈ pre, act g = none) → act f = some e →
      buildDirChain (srcCb false act diag) s (pre ++ f :: post) =
        ({ attempted := s.attempted ++ pre ++ [f],
           log := s.log ++ pre.flatMap diag ++ diag f,
           success := s.success }, some e) := by
  intro pre
  induction pre with
  | nil =>
    intro f e post s _ hf
    simp [buildDirChain, srcCb, hf]
  | cons g rest ih =>
    intro f e post s hpre hf
    have hg : act g = none := hpre g (List.mem_cons_self g rest)
    have hrest : ∀ x ∈ rest, act x = none := fun x hx => hpre x (List.mem_cons_of_mem g hx)
    simp only [List.cons_append, List.append_eq, buildDirChain, srcCb, hg]
    rw [ih f e post _ hrest hf]
    simp

/-- When every action resolves, the chain resolves with every match
attempted and the flag untouched (any `ignoreErrors`). -/
lemma buildDirChain_srcCb_allok (ignoreErrors : Bool) (act : String → Option String)
    (diag : String → List LogEntry) :
    ∀ (ms : List String) (s : SrcSt), (∀ f ∈ ms, act f = none) →
      buildDirChain (srcCb ignoreErrors act diag) s ms =
        ({ attempted := s.attempted ++ ms,
           log := s.log ++ ms.flatMap diag,
           success := s.success }, none) := by
  intro ms
  induction ms with
  | nil => intro s _; simp [buildDirChain]
  | cons f rest ih =>
    intro s hall
    have hf : act f = none := hall f (List.mem_cons_self f rest)
    have hrest : ∀ x ∈ rest, act x = none := fun x hx => hall x (List.mem_cons_of_mem f hx)
    simp [buildDirChain, srcCb, hf, ih _ hrest]

/-- With `ignoreErrors = false`, the chain rejects exactly when some
match's action rejects. -/
lemma buildDirChain_srcCb_noignore_err (act : String → Option String)
    (diag : String → List LogEntry) :
    ∀ (ms : List String) (s : SrcSt),
      (∃ e, (buildDirChain (srcCb false act diag) s ms).2 = some e) ↔
        ∃ f ∈ ms, act f ≠ none := by
  intro ms
  induction ms with
  | nil => intro s; simp [buildDirChain]
  | cons f rest ih =>
    intro s
    cases hf : act f with
    | none =>
      simp only [buildDirChain, srcCb, hf]
      rw [ih]
      constructor
      · rintro ⟨g, hg, hgf⟩
        exact ⟨g, List.mem_cons_of_mem f hg, hgf⟩
      · rintro ⟨g, hg, hgf⟩
        rcases List.mem_cons.mp hg with hg | hg
        · exact absurd (hg ▸ hf) hgf
        · exact ⟨g, hg, hgf⟩
    | some e =>
      simp only [buildDirChain, srcCb, hf]
      constructor
      · intro _
        exact ⟨f, List.mem_cons_self f rest, by simp [hf]⟩
      · intro _
        exact ⟨e, rfl⟩

/-- Whenever the batch resolves with an aggregate value `v`, `v` is `true`
iff every per-file action succeeded (shared helper). -/
lemma buildSrc_aggregate_iff_aux (ignoreErrors : Bool) (act : String → Option String)
    (diag : String → List LogEntry) (ms : List String) (v : Bool)
    (h : buildSrcResult ignoreErrors act diag ms = Except.ok v) :
    v = true ↔ ∀ f ∈ ms, act f = none := by
  rcases hrun : buildSrcRun ignoreErrors act diag ms with ⟨s, e⟩
  cases e with
  | none =>
    have hv : s.success = v := by
      rw [buildSrcResult, hrun] at h
      exact Except.ok.inj h
    cases ignoreErrors with
    | false =>
      rcases buildDirChain_srcCb_noignore_ok act diag ms _ s hrun with ⟨hall, hsucc⟩
      simp only [← hv, hsucc]
      simpa using hall
    | true =>
      have hclosed := buildDirChain_srcCb_ignore act diag ms
        { attempted := [], log := [], success := true }
      rw [buildSrcRun] at hrun
      rw [hrun] at hclosed
      have hs : s.success = ms.all fun f => (act f).isNone := by
        have := congrArg (fun p => (Prod.fst p).success) hclosed
        simpa using this
      rw [← hv, hs]
      simp [List.all_eq_true, Option.isNone_iff_eq_none]
  | some e =>
    rw [buildSrcResult, hrun] at h
    exact absurd h (by simp)

/-- C1: whenever `buildSrc` resolves with an aggregate value `v` — for any
`ignoreErrors` setting — `v` is `true` iff every per-file action in the
batch succeeded; in particular a batch that `ignoreErrors` let run past a
failure resolves with `v = false`. -/
theorem buildSrc_aggregate_iff (ignoreErrors : Bool) (act : String → Option String)
    (diag : String → List LogEntry) (ms : List String) (v : Bool)
    (h : buildSrcResult ignoreErrors act diag ms = Except.ok v) :
    v = true ↔ ∀ f ∈ ms, act f = none :=
  buildSrc_aggregate_iff_aux ignoreErrors act diag ms v h

/-- C1 witness: a two-file batch with `ignoreErrors = true` whose second
file fails resolves with aggregate `false`, and indeed not every file
succeeded. -/
theorem buildSrc_aggregate_iff_witness :
    (false = true ↔
      ∀ f ∈ ["a.sma", "b.sma"],
        (fun g => if g = "b.sma" then some "compile failed" else none) f = none) :=
  buildSrc_aggregate_iff true
    (fun g => if g = "b.sma" then some "compile failed" else none)
    (fun _ => []) ["a.sma", "b.sma"] false rfl

/-- C10: with `ignoreErrors = false`, `buildSrc` never resolves with
`false`: it resolves with `true` exactly when every per-file action
succeeded, and it rejects (propagating the failure) exactly when some
per-file action failed. -/
theorem buildSrc_noignore_never_false (act : String → Option String)
    (diag : String → List LogEntry) (ms : List String) :
    buildSrcResult false act diag ms ≠ Except.ok false ∧
    (buildSrcResult false act diag ms = Except.ok true ↔ ∀ f ∈ ms, act f = none) ∧
    ((∃ e, buildSrcResult false act diag ms = Except.error e) ↔
      ∃ f ∈ ms, act f ≠ none) := by
  refine ⟨?_, ⟨?_, ?_⟩, ?_⟩
  · intro h
    rcases hrun : buildSrcRun false act diag ms with ⟨s, e⟩
    cases e with
    | none =>
      rcases buildDirChain_srcCb_noignore_ok act diag ms _ s hrun with ⟨_, hsucc⟩
      rw [buildSrcResult, hrun] at h
      have := Except.ok.inj h
      rw [this] at hsucc
      simp at hsucc
    | some e =>
      rw [buildSrcResult, hrun] at h
      exact absurd h (by simp)
  · intro h
    exact (buildSrc_aggregate_iff_aux false act diag ms true h).mp rfl
  · intro hall
    have := buildDirChain_srcCb_allok false act diag ms
      { attempted := [], log := [], success := true } hall
    rw [buildSrcResult, buildSrcRun, this]
  · rcases hrun : buildSrcRun false act diag ms with ⟨s, e⟩
    have hiff := buildDirChain_srcCb_noignore_err act diag ms
      { attempted := [], log := [], success := true }
    rw [← buildSrcRun, hrun] at hiff
    cases e with
    | none =>
      simp at hiff
      constructor
      · rintro ⟨e, he⟩
        rw [buildSrcResult, hrun] at he
        exact absurd he (by simp)
      · rintro ⟨f, hf, hfe⟩
        exact absurd (hiff f hf) hfe
    | some e =>
      constructor
      · intro _
        exact hiff.mp ⟨e, rfl⟩
      · intro _
        refine ⟨e, ?_⟩
        rw [buildSrcResult, hrun]

/-- C3: with `ignoreErrors = false`, when every file before `f` in scan
order succeeds and `f`'s action rejects with `e`, the batch attempts
exactly the files up to and including `f` — each exactly once, in scan
order, none of the later files — and `buildSrc` rejects with `e`,
raising the failure to its caller. -/
theorem buildSrc_noignore_stops_at_first_failure (act : String → Option String)
    (diag : String → List LogEntry) (pre : List String) (f e : String)
    (post : List String) (hpre : ∀ g ∈ pre, act g = none) (hf : act f = some e) :
    buildSrcRun false act diag (pre ++ f :: post) =
      ({ attempted := pre ++ [f],
         log := pre.flatMap diag ++ diag f,
         success := true }, some e) ∧
    buildSrcResult false act diag (pre ++ f :: post) = Except.error e := by
  have h := buildDirChain_srcCb_noignore_fail act diag pre f e post
    { attempted := [], log := [], success := true } hpre hf
  constructor
  · rw [buildSrcRun, h]
    simp
  · rw [buildSrcResult, buildSrcRun, h]

/-- C3 witness: in the batch `[a.sma, b.sma, c.sma]` where only `b.sma`
fails, exactly `a.sma` and `b.sma` are attempted (in order), `c.sma`
never is, and the batch rejects with the failure. -/
theorem buildSrc_noignore_stops_witness :
    buildSrcRun false (fun g => if g = "b.sma" then some "compile failed" else none)
        (fun _ => []) (["a.sma"] ++ "b.sma" :: ["c.sma"]) =
      ({ attempted := ["a.sma"] ++ ["b.sma"],
         log := ["a.sma"].flatMap (fun _ => []) ++ [],
         success := true }, some "compile failed") ∧
    buildSrcResult false (fun g => if g = "b.sma" then some "compile failed" else none)
        (fun _ => []) (["a.sma"] ++ "b.sma" :: ["c.sma"]) =
      Except.error "compile failed" :=
  buildSrc_noignore_stops_at_first_failure
    (fun g => if g = "b.sma" then some "compile failed" else none)
    (fun _ => []) ["a.sma"] "b.sma" "compile failed" ["c.sma"]
    (by decide) (by decide)

/-- C4: with `ignoreErrors = true`, every matched file is attempted exactly
once, in scan order, even when earlier files fail; the batch always
resolves, and it resolves with `false` exactly when at least one file
failed (with `true` when all succeeded). -/
theorem buildSrc_ignore_attempts_all (act : String → Option String)
    (diag : String → List LogEntry) (ms : List String) :
    buildSrcRun true act diag ms =
      ({ attempted := ms,
         log := ms.flatMap diag,
         success := ms.all fun f => (act f).isNone }, none) ∧
    (buildSrcResult true act diag ms = Except.ok false ↔ ∃ f ∈ ms, act f ≠ none) := by
  have h := buildDirChain_srcCb_ignore act diag ms
    { attempted := [], log := [], success := true }
  refine ⟨by rw [buildSrcRun, h]; simp, ?_⟩
  rw [buildSrcResult, buildSrcRun, h]
  simp only [Except.ok.injEq, Bool.true_and]
  constructor
  · intro hfalse
    by_contra hno
    push_neg at hno
    have : ms.all (fun f => (act f).isNone) = true := by
      simp only [List.all_eq_true, Option.isNone_iff_eq_none]
      exact hno
    rw [this] at hfalse
    exact absurd hfalse.symm (by simp)
  · rintro ⟨f, hf, hfe⟩
    have : ms.all (fun f => (act f).isNone) = false := by
      simp only [List.all_eq_false]
      exact ⟨f, hf, by simpa [Option.isNone_iff_eq_none] using hfe⟩
    rw [this]

/-- A never-rejecting callback that only appends events runs the whole
chain, accumulating the events of each match in scan order. -/
lemma buildDirChain_emit (emit : String → List ActionEv) :
    ∀ (ms : List String) (tr : List ActionEv),
      buildDirChain (fun s f => (s ++ emit f, (none : Option String))) tr ms =
        (tr ++ ms.flatMap emit, none) := by
  intro ms
  induction ms with
  | nil => intro tr; simp [buildDirChain]
  | cons f rest ih => intro tr; simp [buildDirChain, ih]

/-- C5: the promise chain of `buildDir` runs the per-file action on the
matches sequentially in scan order: instrumenting an arbitrary action with
begin/end events yields the trace in which each file's begin event,
internal events and end event form one contiguous block, blocks following
the scan order — the action on a file finishes before the action on the
next file starts, and no two actions overlap. -/
theorem buildDir_sequential_trace (inner : String → List ActionEv) (ms : List String) :
    buildDirChain
        (fun tr f =>
          (tr ++ (ActionEv.start f :: (inner f ++ [ActionEv.finish f])),
            (none : Option String))) [] ms =
      (ms.flatMap (fun f => ActionEv.start f :: (inner f ++ [ActionEv.finish f])), none) := by
  have h := buildDirChain_emit
    (fun f => ActionEv.start f :: (inner f ++ [ActionEv.finish f])) ms []
  simpa using h

/-- Each resolved or rejected batch only appends to the log the
diagnostics of the attempted files (in order). -/
lemma buildDirChain_srcCb_log (ignoreErrors : Bool) (act : String → Option String)
    (diag : String → List LogEntry) :
    ∀ (ms : List String) (s : SrcSt),
      ∃ att : List String,
        ((buildDirChain (srcCb ignoreErrors act diag) s ms).1).log =
          s.log ++ att.flatMap diag := by
  intro ms
  induction ms with
  | nil => intro s; exact ⟨[], by simp [buildDirChain]⟩
  | cons f rest ih =>
    intro s
    cases hf : act f with
    | none =>
      rcases ih { attempted := s.attempted ++ [f], log := s.log ++ diag f, success := s.success } with ⟨att, hatt⟩
      refine ⟨f :: att, ?_⟩
      simp only [buildDirChain, srcCb, hf]
      rw [hatt]
      simp
    | some e =>
      cases ignoreErrors with
      | true =>
        rcases ih { attempted := s.attempted ++ [f], log := s.log ++ diag f, success := false } with ⟨att, hatt⟩
        refine ⟨f :: att, ?_⟩
        simp only [buildDirChain, srcCb, hf, if_pos]
        rw [hatt]
        simp
      | false =>
        refine ⟨[f], ?_⟩
        simp [buildDirChain, srcCb, hf]

/-- `countTerminal` distributes over append. -/
lemma countTerminal_append (a b : List LogEntry) :
    countTerminal (a ++ b) = countTerminal a + countTerminal b := by
  simp [countTerminal, List.countP_append]

/-- A log none of whose entries is a terminal line has no terminal line. -/
lemma countTerminal_eq_zero (l : List LogEntry)
    (h : ∀ e ∈ l, isTerminalLine e = false) : countTerminal l = 0 := by
  rw [countTerminal, List.countP_eq_zero]
  intro a ha
  simp [h a ha]

/-- Both terminal status lines are recognized as terminal. -/
lemma isTerminalLine_terminalLine (b : Bool) :
    isTerminalLine (terminalLine b) = true := by
  cases b <;> decide

/-- C2 (amended): when `buildSrc` resolves — all compiles succeeded, or
`ignoreErrors` is true — `build` ends with exactly one terminal status
line, chosen by the aggregate flag, and every other log line (the
`Building...` banner, the assets/include sync logs and all per-file
diagnostics) precedes it; but when `ignoreErrors` is false and a compile
fails, `buildSrc`'s rejection propagates out of `build`, which then logs
no terminal status line at all. -/
theorem build_terminal_line (ignoreErrors : Bool) (act : String → Option String)
    (diag : String → List LogEntry) (assetLog includeLog : List LogEntry)
    (ms : List String)
    (hA : ∀ e ∈ assetLog, isTerminalLine e = false)
    (hI : ∀ e ∈ includeLog, isTerminalLine e = false)
    (hD : ∀ f, ∀ e ∈ diag f, isTerminalLine e = false) :
    ((buildSrcRun ignoreErrors act diag ms).2 = none →
      (buildRun ignoreErrors act diag assetLog includeLog ms).1 =
        (⟨LogLevel.info, "Building..."⟩ :: (assetLog ++ includeLog) ++
          (buildSrcRun ignoreErrors act diag ms).1.log) ++
        [terminalLine (buildSrcRun ignoreErrors act diag ms).1.success] ∧
      countTerminal (buildRun ignoreErrors act diag assetLog includeLog ms).1 = 1 ∧
      ((buildSrcRun ignoreErrors act diag ms).1.success = true ↔
        ∀ f ∈ ms, act f = none)) ∧
    ((buildSrcRun ignoreErrors act diag ms).2 ≠ none →
      (buildRun ignoreErrors act diag assetLog includeLog ms).2 =
        (buildSrcRun ignoreErrors act diag ms).2 ∧
      countTerminal (buildRun ignoreErrors act diag assetLog includeLog ms).1 = 0) := by
  rcases hrun : buildSrcRun ignoreErrors act diag ms with ⟨s, er⟩
  have hatt := buildDirChain_srcCb_log ignoreErrors act diag ms
    { attempted := [], log := [], success := true }
  rw [← buildSrcRun, hrun] at hatt
  rcases hatt with ⟨att, hatt⟩
  have hslog : countTerminal s.log = 0 := by
    have : (s, er).1.log = s.log := rfl
    rw [this] at hatt
    rw [hatt]
    apply countTerminal_eq_zero
    intro e he
    simp only [List.nil_append] at he
    rcases List.mem_flatMap.mp he with ⟨f, _, hediag⟩
    exact hD f e hediag
  have hhead :
      countTerminal (⟨LogLevel.info, "Building..."⟩ :: (assetLog ++ includeLog)) = 0 := by
    apply countTerminal_eq_zero
    intro e he
    rcases List.mem_cons.mp he with he | he
    · subst he; decide
    · rcases List.mem_append.mp he with he | he
      · exact hA e he
      · exact hI e he
  have hterm : ∀ b : Bool, countTerminal [terminalLine b] = 1 := by
    intro b
    simp [countTerminal, isTerminalLine_terminalLine b]
  cases er with
  | none =>
    have hb : buildRun ignoreErrors act diag assetLog includeLog ms =
        ((⟨LogLevel.info, "Building..."⟩ :: (assetLog ++ includeLog)) ++ s.log ++
          [terminalLine s.success], none) := by
      rw [buildRun, hrun]
    constructor
    · intro _
      refine ⟨?_, ?_, ?_⟩
      · rw [hb]
      · rw [hb]
        simp only [countTerminal_append, hhead, hslog, hterm]
      · have hres : buildSrcResult ignoreErrors act diag ms = Except.ok s.success := by
          rw [buildSrcResult, hrun]
        exact buildSrc_aggregate_iff_aux ignoreErrors act diag ms s.success hres
    · intro h
      exact absurd rfl h
  | some e =>
    have hb : buildRun ignoreErrors act diag assetLog includeLog ms =
        ((⟨LogLevel.info, "Building..."⟩ :: (assetLog ++ includeLog)) ++ s.log,
          some e) := by
      rw [buildRun, hrun]
    constructor
    · intro h
      simp at h
    · intro _
      refine ⟨by rw [hb], ?_⟩
      rw [hb]
      simp only [countTerminal_append, hhead, hslog]

/-- C2 counterexample: in a run of `build` with `ignoreErrors = false` and
one failing compile, the batch does not end with exactly one terminal
status line — no terminal line is logged at all, and the failure
propagates out of `build` instead. -/
theorem build_terminal_line_cex :
    countTerminal
        (buildRun false (fun _ => some "compile failed") (fun _ => []) [] [] ["a.sma"]).1 ≠ 1 ∧
    (buildRun false (fun _ => some "compile failed") (fun _ => []) [] [] ["a.sma"]).2 =
      some "compile failed" := by
  constructor
  · decide
  · rfl

/-- C2 (amended) witness: a one-file batch with `ignoreErrors = true`
whose compile fails still resolves, ending with exactly one terminal
status line; the rejection branch holds vacuously. -/
theorem build_terminal_line_witness :
    ((buildSrcRun true (fun _ => some "compile failed") (fun _ => []) ["a.sma"]).2 = none →
      (buildRun true (fun _ => some "compile failed") (fun _ => []) [] [] ["a.sma"]).1 =
        (⟨LogLevel.info, "Building..."⟩ :: ([] ++ []) ++
          (buildSrcRun true (fun _ => some "compile failed") (fun _ => []) ["a.sma"]).1.log) ++
        [terminalLine
          (buildSrcRun true (fun _ => some "compile failed") (fun _ => []) ["a.sma"]).1.success] ∧
      countTerminal
        (buildRun true (fun _ => some "compile failed") (fun _ => []) [] [] ["a.sma"]).1 = 1 ∧
      ((buildSrcRun true (fun _ => some "compile failed") (fun _ => []) ["a.sma"]).1.success = true ↔
        ∀ f ∈ ["a.sma"], (fun _ => some "compile failed") f = none)) ∧
    ((buildSrcRun true (fun _ => some "compile failed") (fun _ => []) ["a.sma"]).2 ≠ none →
      (buildRun true (fun _ => some "compile failed") (fun _ => []) [] [] ["a.sma"]).2 =
        (buildSrcRun true (fun _ => some "compile failed") (fun _ => []) ["a.sma"]).2 ∧
      countTerminal
        (buildRun true (fun _ => some "compile failed") (fun _ => []) [] [] ["a.sma"]).1 = 0) :=
  build_terminal_line true (fun _ => some "compile failed") (fun _ => [])
    [] [] ["a.sma"] (by simp) (by simp) (by simp)

/-- C6: a diagnostic message of type `Error` or `FatalError` is routed to
the error-level log, a `Warning` to the warning-level log, an `Echo` to
the debug-level log; every message of the compile result is routed before
the outcome is decided; the messages never affect the outcome, and the
per-file compile operation fails exactly when the compile result's
`success` flag is `false`. -/
theorem compilePlugin_diagnostic_routing (srcRel : String) (destDir : FsPath)
    (r : AMXXPCResult) (m : AMXPCMessage) :
    ((m.type = AMXPCMessageType.Error ∨ m.type = AMXPCMessageType.FatalError) →
      (routeMessage srcRel m).level = LogLevel.error) ∧
    (m.type = AMXPCMessageType.Warning → (routeMessage srcRel m).level = LogLevel.warn) ∧
    (m.type = AMXPCMessageType.Echo → (routeMessage srcRel m).level = LogLevel.debug) ∧
    (∃ tail, (classifyAndFinish srcRel destDir r).1 =
      r.messages.map (routeMessage srcRel) ++ tail) ∧
    ((∃ p, (classifyAndFinish srcRel destDir r).2 = Except.ok p) ↔ r.success = true) ∧
    (classifyAndFinish srcRel destDir r).2 =
      (classifyAndFinish srcRel destDir { r with messages := [] }).2 := by
  refine ⟨?_, ?_, ?_, ?_, ?_, ?_⟩
  · rintro (h | h) <;> simp [routeMessage, h]
  · intro h; simp [routeMessage, h]
  · intro h; simp [routeMessage, h]
  · cases hs : r.success
    · exact ⟨[], by simp [classifyAndFinish, hs]⟩
    · refine ⟨[⟨LogLevel.success, "Compilation success: " ++ srcRel⟩,
        ⟨LogLevel.info, "Plugin updated: " ++ pathToString (destDir ++ [r.plugin])⟩], ?_⟩
      simp [classifyAndFinish, hs]
  · cases hs : r.success <;> simp [classifyAndFinish, hs]
  · cases hs : r.success <;> simp [classifyAndFinish, hs]

/-- C6 witness: concrete messages of each severity are routed to the
corresponding log level, and a concrete failing compile result makes the
operation fail while a succeeding one does not. -/
theorem compilePlugin_diagnostic_routing_witness :
    (routeMessage "src/scripts/test.sma"
      ⟨1, AMXPCMessageType.Error, "017", "undefined symbol", none⟩).level =
        LogLevel.error ∧
    (routeMessage "src/scripts/test.sma"
      ⟨2, AMXPCMessageType.FatalError, "100", "cannot read from file", none⟩).level =
        LogLevel.error ∧
    (routeMessage "src/scripts/test.sma"
      ⟨3, AMXPCMessageType.Warning, "203", "symbol is never used", none⟩).level =
        LogLevel.warn ∧
    (routeMessage "src/scripts/test.sma"
      ⟨4, AMXPCMessageType.Echo, "", "Header size", none⟩).level =
        LogLevel.debug ∧
    ((∃ p, (classifyAndFinish "src/scripts/test.sma" ["plugins"]
        ⟨false, "", some "1 error", []⟩).2 = Except.ok p) ↔ False) :=
  ⟨(compilePlugin_diagnostic_routing "src/scripts/test.sma" ["plugins"]
      ⟨false, "", some "1 error", []⟩
      ⟨1, AMXPCMessageType.Error, "017", "undefined symbol", none⟩).1 (Or.inl rfl),
   (compilePlugin_diagnostic_routing "src/scripts/test.sma" ["plugins"]
      ⟨false, "", some "1 error", []⟩
      ⟨2, AMXPCMessageType.FatalError, "100", "cannot read from file", none⟩).1 (Or.inr rfl),
   (compilePlugin_diagnostic_routing "src/scripts/test.sma" ["plugins"]
      ⟨false, "", some "1 error", []⟩
      ⟨3, AMXPCMessageType.Warning, "203", "symbol is never used", none⟩).2.1 rfl,
   (compilePlugin_diagnostic_routing "src/scripts/test.sma" ["plugins"]
      ⟨false, "", some "1 error", []⟩
      ⟨4, AMXPCMessageType.Echo, "", "Header size", none⟩).2.2.1 rfl,
   by
    have h := (compilePlugin_diagnostic_routing "src/scripts/test.sma" ["plugins"]
      ⟨false, "", some "1 error", []⟩
      ⟨1, AMXPCMessageType.Error, "017", "undefined symbol", none⟩).2.2.2.2.1
    simpa using h⟩

/-- C7 counterexample: for a script file contained in none of the
configured scripts base directories, the plugin compile with the
flat-compilation rule set does not fail: it resolves no relative path at
all and proceeds with the plugins output root as destination. -/
theorem path_resolution_cex :
    findRelativePath [["src", "scripts"]] ["other", "x.sma"] = none ∧
    findRelativePath [["src", "scripts"]] (dirOf ["other", "x.sma"]) = none ∧
    compilePluginDestDir [["src", "scripts"]] ["plugins"] true ["other", "x.sma"] =
      Except.ok ["plugins"] := by
  refine ⟨rfl, rfl, rfl⟩

/-- C7 (amended): when no configured base directory is an ancestor of the
target, the asset copy always fails by raising an error, and the plugin
compile fails by raising an error whenever the flat-compilation rule is
false (the only case in which it resolves the file's directory against
the scripts bases); with the rule true no resolution is performed and the
compile proceeds with the plugins output root — in no case is a file
silently skipped or given a fallback resolved path. -/
theorem path_resolution_failure (inputAssets inputScripts : List FsPath)
    (outputAssets outputPlugins : FsPath) (filePath : FsPath)
    (hA : findRelativePath inputAssets filePath = none)
    (hS : findRelativePath inputScripts (dirOf filePath) = none) :
    (∃ e, updateAssetRun inputAssets outputAssets filePath = Except.error e) ∧
    (∃ e, compilePluginDestDir inputScripts outputPlugins false filePath =
      Except.error e) ∧
    compilePluginDestDir inputScripts outputPlugins true filePath =
      Except.ok outputPlugins := by
  refine ⟨?_, ?_, ?_⟩
  · exact ⟨"Cannot find relative path for asset \"" ++ pathToString filePath ++ "\"",
      by rw [updateAssetRun, hA]⟩
  · refine ⟨"Cannot find relative path for plugin \"" ++ pathToString filePath ++ "\"", ?_⟩
    rw [compilePluginDestDir]
    simp [hS]
  · rw [compilePluginDestDir]
    simp

/-- C7 (amended) witness: a concrete file outside the configured bases
makes the asset copy and the non-flat plugin compile fail, while the flat
plugin compile proceeds with the output root. -/
theorem path_resolution_failure_witness :
    (∃ e, updateAssetRun [["assets"]] ["output_assets"] ["elsewhere", "foo.wad"] =
      Except.error e) ∧
    (∃ e, compilePluginDestDir [["src", "scripts"]] ["output_plugins"] false
      ["elsewhere", "foo.wad"] = Except.error e) ∧
    compilePluginDestDir [["src", "scripts"]] ["output_plugins"] true
      ["elsewhere", "foo.wad"] = Except.ok ["output_plugins"] :=
  path_resolution_failure [["assets"]] [["src", "scripts"]]
    ["output_assets"] ["output_plugins"] ["elsewhere", "foo.wad"] rfl rfl

/-- A base directory is stripped from a path it properly contains. -/
lemma stripBase_append (root sub : FsPath) (hsub : sub ≠ []) :
    stripBase root (root ++ sub) = some sub := by
  induction root with
  | nil =>
    simp [stripBase, List.isEmpty_iff, hsub]
  | cons b bs ih =>
    simp [stripBase, ih]

/-- C8: for a script inside a sub-directory of the scripts input root,
the flat-compilation rule = true places the artifact's destination at the
plugins output root itself, and the rule = false places it at the plugins
output root joined with the script's directory path relative to the
scripts input root, mirroring the source sub-directory structure. -/
theorem compilePlugin_dest_layout (scriptsRoot outputPlugins sub : FsPath)
    (name : String) (hsub : sub ≠ []) :
    compilePluginDestDir [scriptsRoot] outputPlugins true
      (scriptsRoot ++ sub ++ [name]) = Except.ok outputPlugins ∧
    compilePluginDestDir [scriptsRoot] outputPlugins false
      (scriptsRoot ++ sub ++ [name]) = Except.ok (outputPlugins ++ sub) := by
  constructor
  · rw [compilePluginDestDir]
    simp
  · rw [compilePluginDestDir]
    have hdir : dirOf (scriptsRoot ++ sub ++ [name]) = scriptsRoot ++ sub := by
      simp [dirOf]
    rw [if_neg (by simp)]
    rw [hdir, findRelativePath]
    simp [stripBase_append scriptsRoot sub hsub]

/-- C8 witness: the spec's scenario — `src/scripts/maps/de_dust.sma` goes
to `output_plugins` itself under the flat rule and to
`output_plugins/maps` otherwise. -/
theorem compilePlugin_dest_layout_witness :
    compilePluginDestDir [["src", "scripts"]] ["output_plugins"] true
      (["src", "scripts"] ++ ["maps"] ++ ["de_dust.sma"]) =
      Except.ok ["output_plugins"] ∧
    compilePluginDestDir [["src", "scripts"]] ["output_plugins"] false
      (["src", "scripts"] ++ ["maps"] ++ ["de_dust.sma"]) =
      Except.ok (["output_plugins"] ++ ["maps"]) :=
  compilePlugin_dest_layout ["src", "scripts"] ["output_plugins"] ["maps"]
    "de_dust.sma" (by simp)

/-- Running a create-then-copy pair leaves the destination holding the
source's content (overwriting whatever was there) and the created
directory existing. -/
lemma runOps_sync (fs : FsState) (d src dest : FsPath) :
    (runOps fs [FsOp.mkdirp d, FsOp.copyFile src dest]).files dest = fs.files src ∧
    d ∈ (runOps fs [FsOp.mkdirp d, FsOp.copyFile src dest]).dirs := by
  constructor
  · simp [runOps, applyOp]
  · by_cases h : d ∈ fs.dirs <;> simp [runOps, applyOp, h]

/-- C9: destination rules of the sync actions.  A script (when a scripts
output root is configured) and an include file are placed directly under
their output roots using only their base name — any source sub-directory
is flattened; an asset is placed under the assets output root at its path
relative to its input root.  In each case the operation is a directory
creation of the destination's directory followed by the copy, and after
running it the destination holds the source's content, overwriting any
previous content. -/
theorem sync_destination_rules (scriptsOut includeOut assetsOut : FsPath)
    (inputAssets : List FsPath) (scriptFile includeFile assetFile rel : FsPath)
    (hrel : findRelativePath inputAssets assetFile = some rel) :
    (updateScriptRun (some scriptsOut) scriptFile).1 =
      [FsOp.mkdirp scriptsOut,
       FsOp.copyFile scriptFile (scriptsOut ++ [baseOf scriptFile])] ∧
    dirOf (scriptsOut ++ [baseOf scriptFile]) = scriptsOut ∧
    (∀ fs : FsState,
      (runOps fs (updateScriptRun (some scriptsOut) scriptFile).1).files
          (scriptsOut ++ [baseOf scriptFile]) = fs.files scriptFile ∧
      scriptsOut ∈ (runOps fs (updateScriptRun (some scriptsOut) scriptFile).1).dirs) ∧
    (updateIncludeRun includeOut includeFile).1 =
      [FsOp.mkdirp includeOut,
       FsOp.copyFile includeFile (includeOut ++ [baseOf includeFile])] ∧
    dirOf (includeOut ++ [baseOf includeFile]) = includeOut ∧
    (∀ fs : FsState,
      (runOps fs (updateIncludeRun includeOut includeFile).1).files
          (includeOut ++ [baseOf includeFile]) = fs.files includeFile ∧
      includeOut ∈ (runOps fs (updateIncludeRun includeOut includeFile).1).dirs) ∧
    updateAssetRun inputAssets assetsOut assetFile =
      Except.ok ([FsOp.mkdirp (dirOf (assetsOut ++ rel)),
                  FsOp.copyFile assetFile (assetsOut ++ rel)],
        [⟨LogLevel.info, "Asset updated " ++ pathToString (assetsOut ++ rel)⟩]) ∧
    (∀ fs : FsState,
      (runOps fs [FsOp.mkdirp (dirOf (assetsOut ++ rel)),
          FsOp.copyFile assetFile (assetsOut ++ rel)]).files (assetsOut ++ rel) =
        fs.files assetFile ∧
      dirOf (assetsOut ++ rel) ∈ (runOps fs [FsOp.mkdirp (dirOf (assetsOut ++ rel)),
          FsOp.copyFile assetFile (assetsOut ++ rel)]).dirs) := by
  refine ⟨rfl, by simp [dirOf], ?_, rfl, by simp [dirOf], ?_, ?_, ?_⟩
  · intro fs
    exact runOps_sync fs scriptsOut scriptFile (scriptsOut ++ [baseOf scriptFile])
  · intro fs
    exact runOps_sync fs includeOut includeFile (includeOut ++ [baseOf includeFile])
  · rw [updateAssetRun, hrel]
  · intro fs
    exact runOps_sync fs (dirOf (assetsOut ++ rel)) assetFile (assetsOut ++ rel)

/-- C9 witness: the spec's scenario — a script and an include are
flattened to their output roots by base name, and the asset
`assets/textures/foo.wad` lands at `output_assets/textures/foo.wad` with
its directory created first; an existing destination file (`"old"`) is
overwritten with the source's content. -/
theorem sync_destination_rules_witness :
    (updateScriptRun (some ["output_scripts"]) ["src", "scripts", "maps", "a.sma"]).1 =
      [FsOp.mkdirp ["output_scripts"],
       FsOp.copyFile ["src", "scripts", "maps", "a.sma"]
         (["output_scripts"] ++ [baseOf ["src", "scripts", "maps", "a.sma"]])] ∧
    updateAssetRun [["assets"]] ["output_assets"] ["assets", "textures", "foo.wad"] =
      Except.ok ([FsOp.mkdirp (dirOf (["output_assets"] ++ ["textures", "foo.wad"])),
                  FsOp.copyFile ["assets", "textures", "foo.wad"]
                    (["output_assets"] ++ ["textures", "foo.wad"])],
        [⟨LogLevel.info,
          "Asset updated " ++ pathToString (["output_assets"] ++ ["textures", "foo.wad"])⟩]) ∧
    (runOps
        ⟨[], fun p =>
          if p = ["output_assets", "textures", "foo.wad"] then some "old"
          else if p = ["assets", "textures", "foo.wad"] then some "wad bytes"
          else none⟩
        [FsOp.mkdirp (dirOf (["output_assets"] ++ ["textures", "foo.wad"])),
         FsOp.copyFile ["assets", "textures", "foo.wad"]
           (["output_assets"] ++ ["textures", "foo.wad"])]).files
      (["output_assets"] ++ ["textures", "foo.wad"]) = some "wad bytes" := by
  have h := sync_destination_rules ["output_scripts"] ["output_include"]
    ["output_assets"] [["assets"]] ["src", "scripts", "maps", "a.sma"]
    ["include", "inc.inc"] ["assets", "textures", "foo.wad"] ["textures", "foo.wad"] rfl
  refine ⟨h.1, h.2.2.2.2.2.2.1, ?_⟩
  have h2 := (h.2.2.2.2.2.2.2
    ⟨[], fun p =>
      if p = ["output_assets", "textures", "foo.wad"] then some "old"
      else if p = ["assets", "textures", "foo.wad"] then some "wad bytes"
      else none⟩).1
  simpa using h2
